import Mathlib

/-! # core.js static file server: the process entry point

A shallow embedding of `main` from `main.go`.  The program is straight-line
wiring around three library calls, so the embedding is an effect trace: every
call `main` makes that is visible outside the process (a write to standard
output, the start of a listener, the fatal log) is an `Event`, the library
calls whose results `main` branches on are answered by a `World`, and `main`
is a function from the world to the `Run` it produces.

The three local constants of `main` (`use_https`, `host`, `port`) are gathered
in `Config`; `mainWith` is the body of `main` over an arbitrary configuration
and `main` is that body at the compiled-in one.
-/

namespace CoreJs

/-! ## Library values -/

/-- A Go `error` value that is not nil, identified by its message. -/
structure GoError where
  msg : String
deriving DecidableEq, Repr

/-- The value `http.FileServer(http.Dir(root))`. -/
inductive FileHandler where
  | FileServer (root : String)
deriving DecidableEq, Repr

/-- A `*http.ServeMux`: its registrations, in the order they were made. -/
structure ServeMux where
  routes : List (String × FileHandler)
deriving DecidableEq, Repr

/-- The value `http.NewServeMux()`: no registration. -/
def NewServeMux : ServeMux := ⟨[]⟩

/-- The call `mux.Handle(pattern, handler)`: one more registration. -/
def ServeMux.Handle (mux : ServeMux) (pattern : String) (handler : FileHandler) : ServeMux :=
  ⟨mux.routes ++ [(pattern, handler)]⟩

/-- An `http.Handler` as `main` can build one: a mux, or a handler wrapped by
the adapter that `httpcompression.DefaultAdapter()` returned. -/
inductive Handler where
  | mux (m : ServeMux)
  | compress (inner : Handler)
deriving DecidableEq, Repr

/-! ## Formatting -/

/-- The verb `%d` of `fmt` on an `int`. -/
def fmtD (n : Int) : String :=
  match n with
  | Int.ofNat m => Nat.repr m
  | Int.negSucc m => "-" ++ Nat.repr (m + 1)

/-- The call `fmt.Sprintf("%s:%d", host, port)`. -/
def sprintfAddr (host : String) (port : Int) : String :=
  host ++ ":" ++ fmtD port

/-- The text of `fmt.Printf("Web server listening on https://%s:%d/\n", host, port)`. -/
def bannerHttps (host : String) (port : Int) : String :=
  "Web server listening on https://" ++ host ++ ":" ++ fmtD port ++ "/\n"

/-- The text of `fmt.Printf("Web server listening on http://%s:%d/\n", host, port)`. -/
def bannerHttp (host : String) (port : Int) : String :=
  "Web server listening on http://" ++ host ++ ":" ++ fmtD port ++ "/\n"

/-! ## Effects -/

/-- What `main` does that is visible from outside the process. -/
inductive Event where
  | Printf (text : String)
  | ListenAndServeTLS (addr certFile keyFile : String) (handler : Handler)
  | ListenAndServe (addr : String) (handler : Handler)
  | LogFatal (e : GoError)
deriving DecidableEq, Repr

/-- How the blocking listener call ends: it never returns (the process serves
until it is killed), or it returns an `error`, nil (`none`) or not. -/
inductive ListenResult where
  | blocks
  | returns (err : Option GoError)
deriving DecidableEq, Repr

/-- How an execution of `main` ends. -/
inductive Outcome where
  | fatalExit
  | returned
  | serving
deriving DecidableEq, Repr

/-- Everything outside `main` that an execution can depend on: the process
arguments and environment, the `err` result of
`httpcompression.DefaultAdapter()`, and the result of each listener call. -/
structure World where
  args : List String
  environ : List (String × String)
  adapterErr : Option GoError
  listenTLS : String → String → String → Handler → ListenResult
  listen : String → Handler → ListenResult

/-- The three local constants at the head of `main`. -/
structure Config where
  use_https : Bool
  host : String
  port : Int
deriving DecidableEq, Repr

/-- An execution of `main`: the mux it built, its events in order, its end. -/
structure Run where
  mux : ServeMux
  trace : List Event
  outcome : Outcome
deriving DecidableEq, Repr

/-- The tail of `main`, from the return of the listener call on:
`if err != nil { log.Fatal(err) }`, then the end of the function. -/
def afterListen (mux : ServeMux) (before : List Event) : ListenResult → Run
  | ListenResult.blocks => ⟨mux, before, Outcome.serving⟩
  | ListenResult.returns (some e) => ⟨mux, before ++ [Event.LogFatal e], Outcome.fatalExit⟩
  | ListenResult.returns none => ⟨mux, before, Outcome.returned⟩

/-- The body of `main` over the configuration `c`. -/
def mainWith (c : Config) (w : World) : Run :=
  let mux := NewServeMux.Handle "/" (FileHandler.FileServer ".")
  match w.adapterErr with
  | some e => ⟨mux, [Event.LogFatal e], Outcome.fatalExit⟩
  | none =>
    if c.use_https then
      let addr := sprintfAddr c.host c.port
      let h := Handler.compress (Handler.mux mux)
      afterListen mux
        [Event.Printf (bannerHttps c.host c.port),
         Event.ListenAndServeTLS addr "ssl/default.cert" "ssl/default.key" h]
        (w.listenTLS addr "ssl/default.cert" "ssl/default.key" h)
    else
      let addr := sprintfAddr c.host c.port
      let h := Handler.mux mux
      afterListen mux
        [Event.Printf (bannerHttp c.host c.port), Event.ListenAndServe addr h]
        (w.listen addr h)

/-- The configuration compiled into `main`. -/
def compiled : Config := ⟨true, "localhost", 3000⟩

/-- The program: `main` with its compiled-in constants. -/
def main (w : World) : Run := mainWith compiled w

/-! ## Reading a trace -/

/-- The handler a listener call was given; `none` for an event that starts no
listener. -/
def Event.handler? : Event → Option Handler
  | Event.ListenAndServeTLS _ _ _ h => some h
  | Event.ListenAndServe _ h => some h
  | _ => none

/-- The address a listener call was given. -/
def Event.addr? : Event → Option String
  | Event.ListenAndServeTLS a _ _ _ => some a
  | Event.ListenAndServe a _ => some a
  | _ => none

/-- Whether the event starts a listener, TLS or plaintext. -/
def Event.isListener (ev : Event) : Bool := ev.handler?.isSome

/-- Whether the event starts the TLS listener. -/
def Event.isTLS : Event → Bool
  | Event.ListenAndServeTLS _ _ _ _ => true
  | _ => false

/-- Whether the event is the fatal log. -/
def Event.isFatal : Event → Bool
  | Event.LogFatal _ => true
  | _ => false

/-- The listener calls of a trace, in order. -/
def listenerCalls (t : List Event) : List Event := t.filter Event.isListener

/-- The texts written to standard output, in order. -/
def printed (t : List Event) : List String :=
  t.filterMap fun ev => match ev with
    | Event.Printf text => some text
    | _ => none

/-- The world's answer to a listener call; `none` for any other event. -/
def World.answer (w : World) : Event → Option ListenResult
  | Event.ListenAndServeTLS a c k h => some (w.listenTLS a c k h)
  | Event.ListenAndServe a h => some (w.listen a h)
  | _ => none

/-- The contract `net/http` documents for both listener calls:
`ListenAndServe` and `ListenAndServeTLS` always return a non-nil error.  A
world obeys it when no listener call of it returns a nil error. -/
def World.listenContract (w : World) : Prop :=
  (∀ a c k h, w.listenTLS a c k h ≠ ListenResult.returns none)
    ∧ ∀ a h, w.listen a h ≠ ListenResult.returns none

/-! ## Route lookup

The lookup is the one of `net/http` (`server.go`), which lies outside the
repository; it is written here for patterns without a host, the only kind
`main` registers. -/

/-- What `mux.Handler(r)` answers a request with: a registered handler, the
mux's own `RedirectHandler(path, StatusMovedPermanently)`, or
`NotFoundHandler()`. -/
inductive Dispatch where
  | handler (h : FileHandler)
  | redirect (path : String)
  | notFound
deriving DecidableEq, Repr

/-- The elements of a path: the text between its slashes. -/
def splitSlash : List Char → List (List Char)
  | [] => [[]]
  | ch :: rest =>
    match splitSlash rest with
    | [] => [[]]
    | seg :: segs => if ch = '/' then [] :: seg :: segs else (ch :: seg) :: segs

/-- The elements that `path.Clean` keeps of a rooted path: empty elements and
`.` are dropped, `..` drops the element kept before it, and is dropped itself
at the root.  `kept` holds the elements kept so far, last first. -/
def resolveDots (kept : List (List Char)) : List (List Char) → List (List Char)
  | [] => kept.reverse
  | seg :: rest =>
    if seg = [] ∨ seg = ['.'] then resolveDots kept rest
    else if seg = ['.', '.'] then resolveDots kept.tail rest
    else resolveDots (seg :: kept) rest

/-- The function `path.Clean` on a rooted path. -/
def pathClean (p : List Char) : List Char :=
  '/' :: List.intercalate ['/'] (resolveDots [] (splitSlash p))

/-- The function `cleanPath` of `net/http`: the canonical form of a request
path, rooted, without `.`, `..` or repeated slashes, a trailing slash kept. -/
def cleanPath (p : String) : String :=
  if p.data = [] then "/"
  else
    let q := if p.data.head? = some '/' then p.data else '/' :: p.data
    let np := pathClean q
    if q.getLast? = some '/' ∧ np ≠ ['/'] then String.mk (np ++ ['/']) else String.mk np

/-- The matching rule of `ServeMux` for patterns without host or method: a
pattern that ends in a slash matches every path it begins, any other pattern
matches the one path equal to it. -/
def subtreeRule (pattern path : String) : Bool :=
  if pattern.data.getLast? = some '/' then pattern.data.isPrefixOf path.data
  else pattern == path

/-- The registrations of `mux` whose pattern matches `path`. -/
def ServeMux.candidates (mux : ServeMux) (path : String) : List (String × FileHandler) :=
  mux.routes.filter fun r => subtreeRule r.1 path

/-- The method `mux.handler` on an already canonical path: among the matching
registrations the one with the longest pattern, `NotFoundHandler()` when none
matches. -/
def ServeMux.handler (mux : ServeMux) (path : String) : Dispatch :=
  match (mux.candidates path).foldl
    (fun best r => match best with
      | none => some r
      | some b => if b.1.length < r.1.length then some r else some b)
    none with
  | some r => Dispatch.handler r.2
  | none => Dispatch.notFound

/-- The test of `redirectToPathSlash`: `path` is not registered, `path/` is,
and `path` does not end in a slash. -/
def ServeMux.shouldRedirect (mux : ServeMux) (path : String) : Bool :=
  if mux.routes.any (fun r => r.1 == path) then false
  else if path.data = [] then false
  else if mux.routes.any (fun r => r.1 == path ++ "/") then path.data.getLast? != some '/'
  else false

/-- The method `mux.Handler(r)` for a request with method `method` and URL
path `path`: a `CONNECT` request is looked up as it is; any other request has
its path cleaned, and a path that is not in cleaned form is answered by a
redirect to the cleaned path. -/
def ServeMux.Handler (mux : ServeMux) (method path : String) : Dispatch :=
  if method = "CONNECT" then
    if mux.shouldRedirect path then Dispatch.redirect (path ++ "/")
    else mux.handler path
  else
    let clean := cleanPath path
    if mux.shouldRedirect clean then Dispatch.redirect (clean ++ "/")
    else if clean ≠ path then Dispatch.redirect clean
    else mux.handler path

/-! ## Reading the URL of the startup message -/

/-- What follows the first `://` of a text. -/
def afterSchemeSep : List Char → Option (List Char)
  | [] => none
  | c :: rest =>
    if [':', '/', '/'].isPrefixOf (c :: rest) then some (rest.drop 2)
    else afterSchemeSep rest

/-- What precedes the last `/` of a text. -/
def beforeLastSlash (s : List Char) : Option (List Char) :=
  match s.reverse.dropWhile (fun ch => ch != '/') with
  | [] => none
  | _ :: r => some r.reverse

/-- The authority part of the URL in a text: what stands between the first
`://` and the final `/`. -/
def authority (text : String) : Option String :=
  match afterSchemeSep text.data with
  | none => none
  | some r => (beforeLastSlash r).map String.mk

/-! ## The startup message as the specification words it -/

/-- The scheme the startup message names for a value of the TLS flag. -/
def schemeName (b : Bool) : String := if b then "https" else "http"

/-- The startup message for TLS flag `b`, host `h` and port `p`:
`Web server listening on `, the scheme, `://`, the host, `:`, the port in
decimal, `/` and a newline. -/
def startupText (b : Bool) (h : String) (p : Int) : String :=
  "Web server listening on " ++ schemeName b ++ "://" ++ h ++ ":" ++ fmtD p ++ "/\n"

/-! ## Worlds used as concrete inputs -/

/-- Adapter built; every listener call blocks for the life of the process. -/
def worldServing : World :=
  ⟨[], [], none, fun _ _ _ _ => ListenResult.blocks, fun _ _ => ListenResult.blocks⟩

/-- Adapter built; every listener call fails with "address already in use". -/
def worldPortBusy : World :=
  ⟨["core"], [("PORT", "8080")], none,
   fun _ _ _ _ => ListenResult.returns (some ⟨"bind: address already in use"⟩),
   fun _ _ => ListenResult.returns (some ⟨"bind: address already in use"⟩)⟩

/-- Adapter construction fails. -/
def worldNoAdapter : World :=
  ⟨[], [], some ⟨"httpcompression: codec unavailable"⟩,
   fun _ _ _ _ => ListenResult.blocks, fun _ _ => ListenResult.blocks⟩

/-- The mux `main` builds. -/
def builtMux : ServeMux := ⟨[("/", FileHandler.FileServer ".")]⟩

/-! ## Lemmas on the embedding -/

theorem fmtD_eq_toString (n : Int) : fmtD n = toString n := by
  cases n <;> rfl

theorem handle_new : NewServeMux.Handle "/" (FileHandler.FileServer ".") = builtMux := rfl

theorem sprintfAddr_compiled : sprintfAddr compiled.host compiled.port = "localhost:3000" := by
  decide

theorem bannerHttps_compiled :
    bannerHttps compiled.host compiled.port
      = "Web server listening on https://localhost:3000/\n" := by
  decide

/-- The TLS branch of `main`, once the adapter is built. -/
theorem mainWith_tls (c : Config) (w : World) (hA : w.adapterErr = none)
    (hS : c.use_https = true) :
    mainWith c w = afterListen builtMux
      [Event.Printf (bannerHttps c.host c.port),
       Event.ListenAndServeTLS (sprintfAddr c.host c.port) "ssl/default.cert" "ssl/default.key"
         (Handler.compress (Handler.mux builtMux))]
      (w.listenTLS (sprintfAddr c.host c.port) "ssl/default.cert" "ssl/default.key"
        (Handler.compress (Handler.mux builtMux))) := by
  simp [mainWith, hA, hS, handle_new]

/-- The plaintext branch of `main`, once the adapter is built. -/
theorem mainWith_plain (c : Config) (w : World) (hA : w.adapterErr = none)
    (hS : c.use_https = false) :
    mainWith c w = afterListen builtMux
      [Event.Printf (bannerHttp c.host c.port),
       Event.ListenAndServe (sprintfAddr c.host c.port) (Handler.mux builtMux)]
      (w.listen (sprintfAddr c.host c.port) (Handler.mux builtMux)) := by
  simp [mainWith, hA, hS, handle_new]

/-- The branch of `main` in which the adapter is not built. -/
theorem mainWith_noAdapter (c : Config) (w : World) (e : GoError) (hA : w.adapterErr = some e) :
    mainWith c w = ⟨builtMux, [Event.LogFatal e], Outcome.fatalExit⟩ := by
  simp [mainWith, hA, handle_new]

/-- The trace after the listener call extends the trace before it. -/
theorem afterListen_trace (mux : ServeMux) (before : List Event) (r : ListenResult) :
    (afterListen mux before r).trace = before
      ∨ ∃ e, r = ListenResult.returns (some e)
          ∧ (afterListen mux before r).trace = before ++ [Event.LogFatal e] := by
  rcases r with _ | (_ | e)
  · exact Or.inl rfl
  · exact Or.inl rfl
  · exact Or.inr ⟨e, rfl, rfl⟩

theorem afterListen_mux (mux : ServeMux) (before : List Event) (r : ListenResult) :
    (afterListen mux before r).mux = mux := by
  rcases r with _ | (_ | e) <;> rfl

theorem mainWith_mux (c : Config) (w : World) : (mainWith c w).mux = builtMux := by
  cases hA : w.adapterErr with
  | some e => rw [mainWith_noAdapter c w e hA]
  | none =>
    cases hS : c.use_https with
    | true => rw [mainWith_tls c w hA hS, afterListen_mux]
    | false => rw [mainWith_plain c w hA hS, afterListen_mux]

/-- The text after the first `://`, when no colon stands before it. -/
theorem afterSchemeSep_append (p rest : List Char) (hp : ':' ∉ p) :
    afterSchemeSep (p ++ ':' :: '/' :: '/' :: rest) = some rest := by
  induction p with
  | nil => simp [afterSchemeSep, List.isPrefixOf]
  | cons ch p ih =>
    have hc : ¬ (':' = ch) := fun h => hp (List.mem_cons.mpr (Or.inl h))
    have hp2 : ':' ∉ p := fun h => hp (List.mem_cons_of_mem _ h)
    simp [afterSchemeSep, List.isPrefixOf, hc, ih hp2]

/-- The text before the last `/`, when a slash and a newline end the text. -/
theorem beforeLastSlash_append (a : List Char) :
    beforeLastSlash (a ++ ['/', '\n']) = some a := by
  simp [beforeLastSlash, List.dropWhile]

/-- The authority of a URL message written as scheme text, `://`, authority,
`/` and a newline. -/
theorem authority_url (lead a : String) (hl : ':' ∉ lead.data) :
    authority (lead ++ "://" ++ a ++ "/\n") = some a := by
  have h1 : (lead ++ "://" ++ a ++ "/\n").data
      = lead.data ++ ':' :: '/' :: '/' :: (a.data ++ ['/', '\n']) := by
    simp [String.data_append]
  simp [authority, h1, afterSchemeSep_append _ _ hl, beforeLastSlash_append]

theorem bannerHttps_eq (host : String) (port : Int) :
    bannerHttps host port
      = "Web server listening on https" ++ "://" ++ sprintfAddr host port ++ "/\n" := by
  have h : "Web server listening on https://" = "Web server listening on https" ++ "://" := by
    decide
  simp [bannerHttps, sprintfAddr, h, String.append_assoc]

theorem bannerHttp_eq (host : String) (port : Int) :
    bannerHttp host port
      = "Web server listening on http" ++ "://" ++ sprintfAddr host port ++ "/\n" := by
  have h : "Web server listening on http://" = "Web server listening on http" ++ "://" := by
    decide
  simp [bannerHttp, sprintfAddr, h, String.append_assoc]

theorem startupText_true (host : String) (port : Int) :
    startupText true host port = bannerHttps host port := by
  apply String.ext
  simp [startupText, schemeName, bannerHttps, String.data_append]

theorem startupText_false (host : String) (port : Int) :
    startupText false host port = bannerHttp host port := by
  apply String.ext
  simp [startupText, schemeName, bannerHttp, String.data_append]

theorem authority_bannerHttps (host : String) (port : Int) :
    authority (bannerHttps host port) = some (sprintfAddr host port) := by
  rw [bannerHttps_eq]
  exact authority_url _ _ (by decide)

theorem authority_bannerHttp (host : String) (port : Int) :
    authority (bannerHttp host port) = some (sprintfAddr host port) := by
  rw [bannerHttp_eq]
  exact authority_url _ _ (by decide)

/-- A cleaned path begins with a slash. -/
theorem cleanPath_rooted (p : String) : ∃ t, (cleanPath p).data = '/' :: t := by
  have tail : ∀ q : List Char, ∃ t,
      (if q.getLast? = some '/' ∧ pathClean q ≠ ['/'] then String.mk (pathClean q ++ ['/'])
        else String.mk (pathClean q)).data = '/' :: t := by
    intro q
    split
    · exact ⟨_, rfl⟩
    · exact ⟨_, rfl⟩
  unfold cleanPath
  split
  · exact ⟨[], rfl⟩
  · exact tail _

/-- The pattern `/` matches every path that begins with a slash. -/
theorem subtreeRule_root (path : String) (t : List Char) (h : path.data = '/' :: t) :
    subtreeRule "/" path = true := by
  have hl : "/".data = ['/'] := rfl
  simp [subtreeRule, hl, h, List.isPrefixOf]

theorem candidates_builtMux (path : String) (t : List Char) (h : path.data = '/' :: t) :
    builtMux.candidates path = [("/", FileHandler.FileServer ".")] := by
  simp [ServeMux.candidates, builtMux, subtreeRule_root path t h]

theorem handler_builtMux (path : String) (t : List Char) (h : path.data = '/' :: t) :
    builtMux.handler path = Dispatch.handler (FileHandler.FileServer ".") := by
  simp [ServeMux.handler, candidates_builtMux path t h]

/-- The mux `main` builds never redirects to a path with a slash added. -/
theorem shouldRedirect_builtMux (path : String) : builtMux.shouldRedirect path = false := by
  have hl : "/".data = ['/'] := rfl
  by_cases h1 : path.data = []
  · simp [ServeMux.shouldRedirect, h1]
  · have h2 : ¬ ("/" = path ++ "/") := by
      intro h
      have hd := congrArg String.data h
      rw [String.data_append, hl] at hd
      cases hp : path.data with
      | nil => exact h1 hp
      | cons ch rest =>
        rw [hp] at hd
        cases rest <;> simp at hd
    simp [ServeMux.shouldRedirect, builtMux, h1, h2]

/-- The event of an execution that the world answered is the listener call
of the branch taken, and the execution is the tail of `main` after the
startup message and that call. -/
theorem mainWith_answered (c : Config) (w : World) (ev : Event) (r : ListenResult)
    (hev : ev ∈ (mainWith c w).trace) (hret : w.answer ev = some r) :
    w.adapterErr = none ∧ ev.isListener = true ∧ ev.isTLS = c.use_https
      ∧ ev.addr? = some (sprintfAddr c.host c.port)
      ∧ ∃ text, mainWith c w = afterListen builtMux [Event.Printf text, ev] r := by
  cases hA : w.adapterErr with
  | some e =>
    rw [mainWith_noAdapter c w e hA] at hev
    simp at hev
    subst hev
    simp [World.answer] at hret
  | none =>
    cases hS : c.use_https with
    | true =>
      rw [mainWith_tls c w hA hS] at hev ⊢
      have hmem : ev = Event.Printf (bannerHttps c.host c.port)
          ∨ ev = Event.ListenAndServeTLS (sprintfAddr c.host c.port) "ssl/default.cert"
              "ssl/default.key" (Handler.compress (Handler.mux builtMux))
          ∨ ∃ e, ev = Event.LogFatal e := by
        rcases afterListen_trace builtMux _ _ with h | ⟨e, _, h⟩
        · rw [h] at hev
          simp at hev
          rcases hev with h1 | h1
          · exact Or.inl h1
          · exact Or.inr (Or.inl h1)
        · rw [h] at hev
          simp at hev
          rcases hev with h1 | h1 | h1
          · exact Or.inl h1
          · exact Or.inr (Or.inl h1)
          · exact Or.inr (Or.inr ⟨e, h1⟩)
      rcases hmem with h1 | h1 | ⟨e, h1⟩
      · subst h1
        simp [World.answer] at hret
      · subst h1
        simp [World.answer] at hret
        subst hret
        exact ⟨rfl, rfl, rfl, rfl, _, rfl⟩
      · subst h1
        simp [World.answer] at hret
    | false =>
      rw [mainWith_plain c w hA hS] at hev ⊢
      have hmem : ev = Event.Printf (bannerHttp c.host c.port)
          ∨ ev = Event.ListenAndServe (sprintfAddr c.host c.port) (Handler.mux builtMux)
          ∨ ∃ e, ev = Event.LogFatal e := by
        rcases afterListen_trace builtMux _ _ with h | ⟨e, _, h⟩
        · rw [h] at hev
          simp at hev
          rcases hev with h1 | h1
          · exact Or.inl h1
          · exact Or.inr (Or.inl h1)
        · rw [h] at hev
          simp at hev
          rcases hev with h1 | h1 | h1
          · exact Or.inl h1
          · exact Or.inr (Or.inl h1)
          · exact Or.inr (Or.inr ⟨e, h1⟩)
      rcases hmem with h1 | h1 | ⟨e, h1⟩
      · subst h1
        simp [World.answer] at hret
      · subst h1
        simp [World.answer] at hret
        subst hret
        exact ⟨rfl, rfl, rfl, rfl, _, rfl⟩
      · subst h1
        simp [World.answer] at hret

/-! ## The claims -/

/-- C1, evaluated on the plaintext branch: with `use_https = false` (host
`localhost`, port 3000, adapter built) the one listener `main` starts is
`ListenAndServe`, and the handler it receives is the bare mux, not
`compress(mux)`. -/
theorem plaintext_listener_gets_bare_mux :
    listenerCalls (mainWith ⟨false, "localhost", 3000⟩ worldServing).trace
        = [Event.ListenAndServe "localhost:3000" (Handler.mux builtMux)]
      ∧ (listenerCalls (mainWith ⟨false, "localhost", 3000⟩ worldServing).trace).map
          Event.handler? ≠ [some (Handler.compress (Handler.mux builtMux))] := by
  decide

/-- C2: with the compiled-in configuration and the adapter built, the listener
calls of `main` are exactly one `ListenAndServeTLS` with address
`localhost:3000`, certificate `ssl/default.cert`, key `ssl/default.key` and
handler `compress(mux)`; no `ListenAndServe` occurs in the execution; and the
listener calls stay the same under any other process arguments and
environment. -/
theorem compiled_starts_tls_listener (w : World) (hA : w.adapterErr = none) :
    listenerCalls (main w).trace
        = [Event.ListenAndServeTLS "localhost:3000" "ssl/default.cert" "ssl/default.key"
            (Handler.compress (Handler.mux builtMux))]
      ∧ (∀ a h, Event.ListenAndServe a h ∉ (main w).trace)
      ∧ ∀ args environ,
          listenerCalls (main ⟨args, environ, w.adapterErr, w.listenTLS, w.listen⟩).trace
            = listenerCalls (main w).trace := by
  have key : ∀ v : World, v.adapterErr = none →
      listenerCalls (main v).trace
          = [Event.ListenAndServeTLS "localhost:3000" "ssl/default.cert" "ssl/default.key"
              (Handler.compress (Handler.mux builtMux))]
        ∧ ∀ a h, Event.ListenAndServe a h ∉ (main v).trace := by
    intro v hv
    unfold main
    rw [mainWith_tls compiled v hv rfl, sprintfAddr_compiled]
    rcases afterListen_trace builtMux
      [Event.Printf (bannerHttps compiled.host compiled.port),
       Event.ListenAndServeTLS "localhost:3000" "ssl/default.cert" "ssl/default.key"
         (Handler.compress (Handler.mux builtMux))]
      (v.listenTLS "localhost:3000" "ssl/default.cert" "ssl/default.key"
        (Handler.compress (Handler.mux builtMux))) with h | ⟨e, _, h⟩
    · rw [h]
      exact ⟨by simp [listenerCalls, Event.isListener, Event.handler?], by simp⟩
    · rw [h]
      exact ⟨by simp [listenerCalls, Event.isListener, Event.handler?], by simp⟩
  refine ⟨(key w hA).1, (key w hA).2, ?_⟩
  intro args environ
  rw [(key w hA).1, (key ⟨args, environ, w.adapterErr, w.listenTLS, w.listen⟩ hA).1]

theorem compiled_starts_tls_listener_witness :
    worldPortBusy.adapterErr = none
      ∧ listenerCalls (main worldPortBusy).trace
        = [Event.ListenAndServeTLS "localhost:3000" "ssl/default.cert" "ssl/default.key"
            (Handler.compress (Handler.mux builtMux))] :=
  ⟨rfl, (compiled_starts_tls_listener worldPortBusy rfl).1⟩

/-- C3: when `httpcompression.DefaultAdapter()` returns the error `e`, the
execution of `main` is the fatal log of `e` and nothing else: the trace is
that one event, the process ends by the fatal exit, nothing is printed and no
listener is started.  This holds under every configuration, the compiled-in
one included. -/
theorem adapter_error_is_fatal (c : Config) (w : World) (e : GoError)
    (hA : w.adapterErr = some e) :
    (mainWith c w).trace = [Event.LogFatal e]
      ∧ (mainWith c w).outcome = Outcome.fatalExit
      ∧ printed (mainWith c w).trace = []
      ∧ listenerCalls (mainWith c w).trace = []
      ∧ (main w).trace = [Event.LogFatal e]
      ∧ (main w).outcome = Outcome.fatalExit := by
  unfold main
  rw [mainWith_noAdapter c w e hA, mainWith_noAdapter compiled w e hA]
  simp [printed, listenerCalls, Event.isListener, Event.handler?]

theorem adapter_error_is_fatal_witness :
    worldNoAdapter.adapterErr = some ⟨"httpcompression: codec unavailable"⟩
      ∧ (main worldNoAdapter).trace = [Event.LogFatal ⟨"httpcompression: codec unavailable"⟩]
      ∧ (main worldNoAdapter).outcome = Outcome.fatalExit :=
  ⟨rfl, (adapter_error_is_fatal compiled worldNoAdapter _ rfl).2.2.2.2⟩

/-- C4: when the adapter is built and the listener call of the execution
returns the non-nil error `e`, the execution is the startup message, that one
listener call, then the fatal log of exactly `e`, and it ends by the fatal
exit; the listener calls of the whole execution are that single call, which
is the TLS one exactly when `use_https` is set. -/
theorem listener_error_is_fatal (c : Config) (w : World) (ev : Event) (e : GoError)
    (_hA : w.adapterErr = none) (hev : ev ∈ (mainWith c w).trace)
    (hret : w.answer ev = some (ListenResult.returns (some e))) :
    (∃ text, (mainWith c w).trace = [Event.Printf text, ev, Event.LogFatal e])
      ∧ (mainWith c w).outcome = Outcome.fatalExit
      ∧ listenerCalls (mainWith c w).trace = [ev]
      ∧ ev.isTLS = c.use_https := by
  obtain ⟨_, hL, hT, _, text, hrun⟩ := mainWith_answered c w ev _ hev hret
  rw [hrun]
  refine ⟨⟨text, rfl⟩, rfl, ?_, hT⟩
  have hF : (Event.LogFatal e).isListener = false := rfl
  have hP : (Event.Printf text).isListener = false := rfl
  simp [afterListen, listenerCalls, List.filter, hL, hF, hP]

theorem listener_error_is_fatal_witness :
    (main worldPortBusy).trace
        = [Event.Printf "Web server listening on https://localhost:3000/\n",
           Event.ListenAndServeTLS "localhost:3000" "ssl/default.cert" "ssl/default.key"
             (Handler.compress (Handler.mux builtMux)),
           Event.LogFatal ⟨"bind: address already in use"⟩]
      ∧ listenerCalls (mainWith compiled worldPortBusy).trace
        = [Event.ListenAndServeTLS "localhost:3000" "ssl/default.cert" "ssl/default.key"
             (Handler.compress (Handler.mux builtMux))] :=
  ⟨by decide,
   (listener_error_is_fatal compiled worldPortBusy
      (Event.ListenAndServeTLS "localhost:3000" "ssl/default.cert" "ssl/default.key"
        (Handler.compress (Handler.mux builtMux)))
      ⟨"bind: address already in use"⟩ rfl (by decide) rfl).2.2.1⟩

/-- C5: in every world that obeys the contract of the listener calls, `main`
never returns normally, under the compiled-in configuration and under every
other one; and whenever the listener call of the execution returns, whatever
it returns, the value is a non-nil error `e`, the last event of the execution
is the fatal log of `e`, and the execution ends by the fatal exit. -/
theorem main_stops_only_by_fatal_exit (c : Config) (w : World) (hW : w.listenContract) :
    (mainWith c w).outcome ≠ Outcome.returned
      ∧ (main w).outcome ≠ Outcome.returned
      ∧ ∀ ev r, ev ∈ (mainWith c w).trace → w.answer ev = some (ListenResult.returns r) →
          ∃ e, r = some e
            ∧ (mainWith c w).outcome = Outcome.fatalExit
            ∧ (mainWith c w).trace.getLast? = some (Event.LogFatal e) := by
  have never : ∀ d : Config, (mainWith d w).outcome ≠ Outcome.returned := by
    intro d
    cases hA : w.adapterErr with
    | some e =>
      rw [mainWith_noAdapter d w e hA]
      exact fun h => Outcome.noConfusion h
    | none =>
      cases hS : d.use_https with
      | true =>
        rw [mainWith_tls d w hA hS]
        have hc := hW.1 (sprintfAddr d.host d.port) "ssl/default.cert" "ssl/default.key"
          (Handler.compress (Handler.mux builtMux))
        revert hc
        rcases w.listenTLS (sprintfAddr d.host d.port) "ssl/default.cert" "ssl/default.key"
          (Handler.compress (Handler.mux builtMux)) with _ | (_ | e)
        · exact fun _ h => Outcome.noConfusion h
        · exact fun hc _ => hc rfl
        · exact fun _ h => Outcome.noConfusion h
      | false =>
        rw [mainWith_plain d w hA hS]
        have hc := hW.2 (sprintfAddr d.host d.port) (Handler.mux builtMux)
        revert hc
        rcases w.listen (sprintfAddr d.host d.port) (Handler.mux builtMux) with _ | (_ | e)
        · exact fun _ h => Outcome.noConfusion h
        · exact fun hc _ => hc rfl
        · exact fun _ h => Outcome.noConfusion h
  refine ⟨never c, never compiled, ?_⟩
  intro ev r hev hret
  obtain ⟨_, _, _, _, text, hrun⟩ := mainWith_answered c w ev _ hev hret
  cases r with
  | some e =>
    rw [hrun]
    exact ⟨e, rfl, rfl, by simp [afterListen]⟩
  | none =>
    exfalso
    apply never c
    rw [hrun]
    rfl

theorem main_stops_only_by_fatal_exit_witness :
    worldPortBusy.listenContract
      ∧ (main worldPortBusy).outcome ≠ Outcome.returned
      ∧ (main worldPortBusy).outcome = Outcome.fatalExit :=
  ⟨⟨fun _ _ _ _ => by simp [worldPortBusy], fun _ _ => by simp [worldPortBusy]⟩,
   (main_stops_only_by_fatal_exit compiled worldPortBusy
      ⟨fun _ _ _ _ => by simp [worldPortBusy], fun _ _ => by simp [worldPortBusy]⟩).2.1,
   by decide⟩

/-- C6: when the adapter is built, the execution begins with the startup
message followed at once by the listener call; the message is the only text
written to standard output and reads `Web server listening on `, the scheme
(`https` when `use_https` is set, else `http`), `://`, the host, `:`, the port
in decimal, `/` and a newline; the listener called is the only one of the
execution, it is the TLS one exactly when the scheme is `https`, and its
address is the host and port of the message.  Under the compiled-in
configuration the text is `Web server listening on https://localhost:3000/`
and a newline. -/
theorem startup_message (c : Config) (w : World) (hA : w.adapterErr = none) :
    (∃ call rest,
        (mainWith c w).trace = Event.Printf (startupText c.use_https c.host c.port) :: call :: rest
          ∧ call.isListener = true
          ∧ (call.isTLS = true ↔ schemeName c.use_https = "https")
          ∧ call.addr? = some (c.host ++ ":" ++ fmtD c.port)
          ∧ listenerCalls (mainWith c w).trace = [call])
      ∧ printed (mainWith c w).trace = [startupText c.use_https c.host c.port]
      ∧ printed (main w).trace = ["Web server listening on https://localhost:3000/\n"] := by
  have hmain : printed (main w).trace = ["Web server listening on https://localhost:3000/\n"] := by
    unfold main
    rw [mainWith_tls compiled w hA rfl, bannerHttps_compiled]
    rcases afterListen_trace builtMux _ _ with h | ⟨e, _, h⟩ <;> rw [h] <;> rfl
  refine ⟨?_, ?_, hmain⟩
  · cases hS : c.use_https with
    | true =>
      rw [mainWith_tls c w hA hS, startupText_true]
      rcases afterListen_trace builtMux _ _ with h | ⟨e, _, h⟩
      · rw [h]
        exact ⟨_, [], rfl, rfl, ⟨fun _ => rfl, fun _ => rfl⟩, rfl, rfl⟩
      · rw [h]
        exact ⟨_, [Event.LogFatal e], rfl, rfl, ⟨fun _ => rfl, fun _ => rfl⟩, rfl, rfl⟩
    | false =>
      have hne : ¬ (schemeName false = "https") := by decide
      rw [mainWith_plain c w hA hS, startupText_false]
      rcases afterListen_trace builtMux _ _ with h | ⟨e, _, h⟩
      · rw [h]
        exact ⟨_, [], rfl, rfl, ⟨fun h => by simp [Event.isTLS] at h, fun h => absurd h hne⟩,
          rfl, rfl⟩
      · rw [h]
        exact ⟨_, [Event.LogFatal e], rfl, rfl,
          ⟨fun h => by simp [Event.isTLS] at h, fun h => absurd h hne⟩, rfl, rfl⟩
  · cases hS : c.use_https with
    | true =>
      rw [mainWith_tls c w hA hS, startupText_true]
      rcases afterListen_trace builtMux _ _ with h | ⟨e, _, h⟩ <;> rw [h] <;> rfl
    | false =>
      rw [mainWith_plain c w hA hS, startupText_false]
      rcases afterListen_trace builtMux _ _ with h | ⟨e, _, h⟩ <;> rw [h] <;> rfl

theorem startup_message_witness :
    worldServing.adapterErr = none
      ∧ printed (main worldServing).trace = ["Web server listening on https://localhost:3000/\n"] :=
  ⟨rfl, (startup_message compiled worldServing rfl).2.2⟩

/-- C7 as stated fails: the pattern `/` matches the path `/a//b`, yet the mux
`main` builds answers a `GET` request for it with its own redirect to `/a/b`,
not with the file server. -/
theorem unclean_path_is_redirected :
    (main worldServing).mux.routes = [("/", FileHandler.FileServer ".")]
      ∧ subtreeRule "/" "/a//b" = true
      ∧ (main worldServing).mux.Handler "GET" "/a//b" = Dispatch.redirect "/a/b"
      ∧ (main worldServing).mux.Handler "GET" "/a//b"
        ≠ Dispatch.handler (FileHandler.FileServer ".") := by
  decide

/-- C7 amended: under every configuration and in every world, the mux `main`
builds holds exactly one registration, the pattern `/` with the file server
rooted at `.`; so every request whose path is in cleaned form has that
registration as its only match and is dispatched to that file server, whatever
its method. -/
theorem clean_paths_reach_file_server (c : Config) (w : World) :
    (mainWith c w).mux.routes = [("/", FileHandler.FileServer ".")]
      ∧ (main w).mux.routes = [("/", FileHandler.FileServer ".")]
      ∧ ∀ method path : String, cleanPath path = path →
          (mainWith c w).mux.candidates path = [("/", FileHandler.FileServer ".")]
            ∧ (mainWith c w).mux.Handler method path
              = Dispatch.handler (FileHandler.FileServer ".") := by
  unfold main
  rw [mainWith_mux c w, mainWith_mux compiled w]
  refine ⟨rfl, rfl, ?_⟩
  intro method path hclean
  obtain ⟨t, ht⟩ := cleanPath_rooted path
  rw [hclean] at ht
  have hc := candidates_builtMux path t ht
  have hh := handler_builtMux path t ht
  refine ⟨hc, ?_⟩
  by_cases hm : method = "CONNECT"
  · simp [ServeMux.Handler, hm, shouldRedirect_builtMux, hh]
  · simp [ServeMux.Handler, hm, shouldRedirect_builtMux, hclean, hh]

theorem clean_paths_reach_file_server_witness :
    cleanPath "/css/site.css" = "/css/site.css"
      ∧ (main worldServing).mux.Handler "GET" "/css/site.css"
        = Dispatch.handler (FileHandler.FileServer ".") :=
  ⟨by decide,
   ((clean_paths_reach_file_server compiled worldServing).2.2 "GET" "/css/site.css"
      (by decide)).2⟩

/-- C10: for every host, port and value of `use_https`, when the adapter is
built the execution begins with the startup message and the listener call,
and the address given to that call is the authority part of the URL in the
message, the text between the first `://` and the final `/`. -/
theorem banner_agrees_with_socket (c : Config) (w : World) (hA : w.adapterErr = none) :
    ∃ text call rest,
      (mainWith c w).trace = Event.Printf text :: call :: rest
        ∧ call.isListener = true
        ∧ call.addr? = some (sprintfAddr c.host c.port)
        ∧ authority text = some (sprintfAddr c.host c.port)
        ∧ call.addr? = authority text := by
  cases hS : c.use_https with
  | true =>
    rw [mainWith_tls c w hA hS]
    rcases afterListen_trace builtMux _ _ with h | ⟨e, _, h⟩
    · rw [h]
      exact ⟨_, _, [], rfl, rfl, rfl, authority_bannerHttps _ _,
        (authority_bannerHttps _ _).symm⟩
    · rw [h]
      exact ⟨_, _, [Event.LogFatal e], rfl, rfl, rfl, authority_bannerHttps _ _,
        (authority_bannerHttps _ _).symm⟩
  | false =>
    rw [mainWith_plain c w hA hS]
    rcases afterListen_trace builtMux _ _ with h | ⟨e, _, h⟩
    · rw [h]
      exact ⟨_, _, [], rfl, rfl, rfl, authority_bannerHttp _ _,
        (authority_bannerHttp _ _).symm⟩
    · rw [h]
      exact ⟨_, _, [Event.LogFatal e], rfl, rfl, rfl, authority_bannerHttp _ _,
        (authority_bannerHttp _ _).symm⟩

theorem banner_agrees_with_socket_witness :
    worldServing.adapterErr = none
      ∧ ∃ text call rest,
          (mainWith ⟨false, "a://b/c", -7⟩ worldServing).trace = Event.Printf text :: call :: rest
            ∧ call.isListener = true
            ∧ call.addr? = some (sprintfAddr "a://b/c" (-7))
            ∧ authority text = some (sprintfAddr "a://b/c" (-7))
            ∧ call.addr? = authority text :=
  ⟨rfl, banner_agrees_with_socket ⟨false, "a://b/c", -7⟩ worldServing rfl⟩

end CoreJs
